import Mathlib

/-!
Shallow embedding of the GWorkspaceAnalyzer core analysis pipeline
(`backend/app/services/duplicate_detector.py`,
`backend/app/services/invoice_parser.py`,
`backend/app/services/gpt_extractor.py`,
`backend/app/services/gmail_service.py`,
`backend/app/models/invoice.py`, `backend/app/models/finding.py`)
together with proofs about the detection and extraction logic.

Modelling conventions:
* Python `Decimal`/`float` money and percentage arithmetic is modelled by `ℚ`.
* Python `datetime.date` values are modelled by their proleptic ordinal
  (`date.toordinal()`) as `Int`, so `(d2 - d1).days` becomes `d2 - d1`
  and `date.min` becomes `1`.
* Invoice rows come from the database as dictionaries; optional / possibly
  missing keys are modelled as `Option` fields, and each `dict.get` default
  is applied exactly where the source applies it.
* Python truthiness of an optional string (`if s:`) is `none` ↦ false,
  `some ""` ↦ false, otherwise true.
-/

/-- Python truthiness of an `Optional[str]` value. -/
def truthyStr : Option String → Bool
  | none => false
  | some s => !(s == "")

/-- `date.min.toordinal()`: the sentinel used by sorting keys of the form
`x.get("invoice_date") or date.min`. -/
def dateMin : Int := 1

/-- A stored invoice row, as the dictionaries handed to `DuplicateDetector`.
`id` is the database id string collected into `invoice_ids` of findings. -/
structure InvoiceRow where
  id : String
  vendor_name : Option String := none
  vendor_name_normalized : Option String := none
  invoice_number : Option String := none
  invoice_date : Option Int := none
  amount : Option ℚ := none
deriving Repr, DecidableEq

/-- `Decimal(str(inv.get("amount", 0)))`. -/
def amountOf (inv : InvoiceRow) : ℚ := inv.amount.getD 0

/-- Sorting key `x.get("invoice_date") or date.min`. -/
def dateKey (inv : InvoiceRow) : Int := inv.invoice_date.getD dateMin

/-- `sorted(invoices, key=lambda x: x.get("invoice_date") or date.min)`.
Python `sorted` is a stable sort by the key; `List.insertionSort` with the
key order is stable as well, so it computes the same permutation. -/
def sortByDate (invs : List InvoiceRow) : List InvoiceRow :=
  invs.insertionSort (fun a b => dateKey a ≤ dateKey b)

/-- Worker for `dedupKeepFirst`: drops elements already in `seen`. -/
def dedupAux {α : Type} [DecidableEq α] (seen : List α) : List α → List α
  | [] => []
  | x :: xs => if x ∈ seen then dedupAux seen xs else x :: dedupAux (x :: seen) xs

/-- The key sequence of a Python `defaultdict` grouping: keys in order of
first appearance, each kept once. -/
def dedupKeepFirst {α : Type} [DecidableEq α] (l : List α) : List α :=
  dedupAux [] l

/-- `invoice.get("vendor_name_normalized", "unknown")`: the grouping key of
`DuplicateDetector._group_by_vendor`. -/
def vendorKey (inv : InvoiceRow) : String :=
  inv.vendor_name_normalized.getD "unknown"

/-- The vendor keys of `_group_by_vendor`, in dict insertion order. -/
def vendorKeys (invs : List InvoiceRow) : List String :=
  dedupKeepFirst (invs.map vendorKey)

/-- The group `_group_by_vendor` builds for key `v`: the invoices with that
vendor key, in input order. -/
def vendorGroup (invs : List InvoiceRow) (v : String) : List InvoiceRow :=
  invs.filter (fun i => vendorKey i == v)

/-- `DuplicateType` (`models/finding.py`). -/
inductive DuplicateType where
  | exact
  | probable
  | possible
deriving Repr, DecidableEq

/-- `DuplicateFinding` (`models/finding.py`), with the entries the detector
puts into the `details` dict lifted to `detail_*` fields. -/
structure DuplicateFinding where
  duplicate_type : DuplicateType
  vendor_name : String
  invoice_count : Nat
  amount : ℚ
  date_range_days : Int := 0
  confidence_score : ℚ
  invoice_ids : List String
  detail_invoice_number : Option String := none
  detail_charge_amount : Option ℚ := none
  detail_charged_times : Option Nat := none
  detail_dates : List (Option Int) := []
  detail_requires_review : Bool := false
  detail_potential_waste : Option ℚ := none
deriving Repr, DecidableEq

/-- `PriceIncreaseFinding` (`models/finding.py`).  The pydantic model
declares `old_date`/`new_date` as required (non-optional) `date` fields, so
a constructed finding always carries both dates; a construction attempt
with a missing date raises `ValidationError` (see
`mkPriceIncreaseFinding`). -/
structure PriceIncreaseFinding where
  vendor_name : String
  old_amount : ℚ
  new_amount : ℚ
  increase_percentage : ℚ
  old_date : Int
  new_date : Int
  amount : ℚ
  confidence_score : ℚ
  invoice_ids : List String
deriving Repr, DecidableEq

/-- `UnusedSubscriptionFinding` (`models/finding.py`). -/
structure UnusedSubscriptionFinding where
  vendor_name : String
  subscription_type : String
  recurring_amount : ℚ
  frequency : String
  amount : ℚ
  confidence_score : ℚ
  invoice_ids : List String
deriving Repr, DecidableEq

/-- The truthy invoice numbers of a vendor group, in first-appearance order:
the key sequence of `by_invoice_number` in `_find_exact_duplicates`
(`if invoice_num:` skips `None` and `""`). -/
def numberKeys (g : List InvoiceRow) : List String :=
  dedupKeepFirst (g.filterMap (fun i =>
    match i.invoice_number with
    | some s => if s = "" then none else some s
    | none => none))

/-- The `by_invoice_number[n]` bucket inside a vendor group. -/
def numberGroup (g : List InvoiceRow) (n : String) : List InvoiceRow :=
  g.filter (fun i => i.invoice_number == some n)

/-- The body of the `for invoice_num, duplicates in by_invoice_number.items()`
loop of `_find_exact_duplicates`: a finding is produced when the bucket has
more than one member and a single distinct amount. -/
def mkExactFinding (n : String) : List InvoiceRow → Option DuplicateFinding
  | [] => none
  | d0 :: rest =>
    if 1 < (d0 :: rest).length then
      if (dedupKeepFirst ((d0 :: rest).map amountOf)).length = 1 then
        some
          { duplicate_type := DuplicateType.exact
            vendor_name := d0.vendor_name.getD "Unknown"
            invoice_count := (d0 :: rest).length
            amount := amountOf d0 * (((d0 :: rest).length : ℚ) - 1)
            confidence_score := 98 / 100
            invoice_ids := (d0 :: rest).map (fun i => i.id)
            detail_invoice_number := some n
            detail_charge_amount := some (amountOf d0)
            detail_charged_times := some (d0 :: rest).length
            detail_dates := (d0 :: rest).map (fun i => i.invoice_date) }
      else none
    else none

/-- `DuplicateDetector._find_exact_duplicates` on one vendor group. -/
def exactFindingsFor (g : List InvoiceRow) : List DuplicateFinding :=
  (numberKeys g).filterMap (fun n => mkExactFinding n (numberGroup g n))

/-- The invoices of a (pre-sorted) vendor group carrying amount `a`: the
`by_amount[a]` bucket of `_find_probable_duplicates` for a key `a > 0`. -/
def amountGroup (sortedInvs : List InvoiceRow) (a : ℚ) : List InvoiceRow :=
  sortedInvs.filter (fun i => amountOf i == a)

/-- The positive-amount keys of `by_amount`, in first-appearance order over
the date-sorted invoices. -/
def amountKeys (sortedInvs : List InvoiceRow) : List ℚ :=
  dedupKeepFirst ((sortedInvs.map amountOf).filter (fun a => decide (0 < a)))

/-- The dated members of a same-amount invoice set, sorted chronologically:
`sorted([inv for inv in invoices if inv.get("invoice_date")], key=...)`
inside `_is_likely_subscription`. -/
def datedSorted (invs : List InvoiceRow) : List InvoiceRow :=
  (invs.filter (fun i => i.invoice_date.isSome)).insertionSort
    (fun a b => dateKey a ≤ dateKey b)

/-- The consecutive day intervals computed by `_is_likely_subscription`
(pairs with a missing date are skipped by the `if date1 and date2:` guard). -/
def subIntervals (invs : List InvoiceRow) : List Int :=
  ((datedSorted invs).zip (datedSorted invs).tail).filterMap (fun p =>
    match p.1.invoice_date, p.2.invoice_date with
    | some d1, some d2 => some (d2 - d1)
    | _, _ => none)

/-- The `subscription_patterns` table of `_is_likely_subscription`:
`(expected_days, tolerance)` pairs. -/
def subscriptionPatterns : List (ℚ × ℚ) :=
  [(7, 2), (14, 3), (30, 5), (90, 7), (365, 14)]

/-- `avg_interval = sum(intervals) / len(intervals)`. -/
def avgInterval (invs : List InvoiceRow) : ℚ :=
  (((subIntervals invs).map (fun d => (d : ℚ))).sum) / ((subIntervals invs).length : ℚ)

/-- Whether an average interval falls inside one of the recognized
subscription cadence bands. -/
def inSubscriptionBand (avg : ℚ) : Bool :=
  subscriptionPatterns.any (fun p => decide (|avg - p.1| ≤ p.2))

/-- `DuplicateDetector._is_likely_subscription`. -/
def isLikelySubscription (invs : List InvoiceRow) : Bool :=
  if invs.length < 3 then false
  else if (datedSorted invs).length < 3 then false
  else if (subIntervals invs).isEmpty then false
  else inSubscriptionBand (avgInterval invs)

/-- The cluster-growing loop of `_find_temporal_clusters`, carrying the
current (always nonempty) cluster; a closed cluster is kept only when it has
more than one member. -/
def clustersAux (window : Int) (current : List InvoiceRow) :
    List InvoiceRow → List (List InvoiceRow)
  | [] => if 1 < current.length then [current] else []
  | inv :: rest =>
    match inv.invoice_date, current.getLast?.bind (fun i => i.invoice_date) with
    | some cd, some pd =>
      if cd - pd ≤ window then clustersAux window (current ++ [inv]) rest
      else
        (if 1 < current.length then [current] else []) ++ clustersAux window [inv] rest
    | _, _ =>
      (if 1 < current.length then [current] else []) ++ clustersAux window [inv] rest

/-- `DuplicateDetector._find_temporal_clusters`. -/
def temporalClusters (invs : List InvoiceRow) (window : Int) :
    List (List InvoiceRow) :=
  match invs with
  | [] => []
  | i :: rest => clustersAux window [i] rest

/-- The body of the `for cluster in clusters` loop of
`_find_probable_duplicates`: `ag` is the full same-amount group passed to the
subscription check, `a` the bucket's amount key. -/
def mkProbableFinding (a : ℚ) (ag : List InvoiceRow) :
    List InvoiceRow → Option DuplicateFinding
  | [] => none
  | c0 :: crest =>
    if 1 < (c0 :: crest).length then
      let cluster := c0 :: crest
      let dates := cluster.filterMap (fun i => i.invoice_date)
      let dateRange : Int :=
        match dates.min?, dates.max? with
        | some m, some M => M - m
        | _, _ => 0
      if (dedupKeepFirst (cluster.map (fun i => i.invoice_number))).length = 1
          ∧ truthyStr c0.invoice_number then none
      else if isLikelySubscription ag then none
      else
        some
          { duplicate_type := DuplicateType.probable
            vendor_name := c0.vendor_name.getD "Unknown"
            invoice_count := cluster.length
            amount := 0
            date_range_days := dateRange
            confidence_score := 1 / 2
            invoice_ids := cluster.map (fun i => i.id)
            detail_charge_amount := some a
            detail_charged_times := some cluster.length
            detail_dates := cluster.map (fun i => i.invoice_date)
            detail_requires_review := true
            detail_potential_waste := some (a * ((cluster.length : ℚ) - 1)) }
    else none

/-- `DuplicateDetector._find_probable_duplicates` on one vendor group
(`short_window = 2` is hard-coded in the source). -/
def probableFindingsFor (g : List InvoiceRow) : List DuplicateFinding :=
  let sortedInvs := sortByDate g
  (amountKeys sortedInvs).flatMap (fun a =>
    let ag := amountGroup sortedInvs a
    if ag.length < 2 then []
    else (temporalClusters ag 2).filterMap (fun c => mkProbableFinding a ag c))

/-- `DuplicateDetector.detect_duplicates`. -/
def detectDuplicates (invs : List InvoiceRow) : List DuplicateFinding :=
  (vendorKeys invs).flatMap (fun v =>
    exactFindingsFor (vendorGroup invs v) ++ probableFindingsFor (vendorGroup invs v))

/-- Constructing a `PriceIncreaseFinding` through pydantic validation:
`detect_price_increases` passes `inv.get("invoice_date")` for the required
`old_date`/`new_date` fields, so a `None` date makes the constructor raise
`ValidationError` (modelled as `Except.error`); `detect_price_increases`
has no handler, so the error aborts detection. -/
def mkPriceIncreaseFinding (vendor : String) (oldAmount newAmount increasePct : ℚ)
    (oldDate newDate : Option Int) (amt conf : ℚ) (ids : List String) :
    Except String PriceIncreaseFinding :=
  match oldDate, newDate with
  | some od, some nd =>
    Except.ok
      { vendor_name := vendor
        old_amount := oldAmount
        new_amount := newAmount
        increase_percentage := increasePct
        old_date := od
        new_date := nd
        amount := amt
        confidence_score := conf
        invoice_ids := ids }
  | _, _ => Except.error "ValidationError: old_date and new_date are required dates"

/-- The consecutive-pair comparison inside `detect_price_increases`
(`threshold` is `self.price_threshold`, default `20.0`): `Except.ok none`
when the pair does not qualify, `Except.ok (some f)` when a finding is
built, `Except.error` when the qualifying pair's finding fails date
validation. -/
def mkPriceFinding (threshold : ℚ) (oldInv newInv : InvoiceRow) :
    Except String (Option PriceIncreaseFinding) :=
  let oldAmount := amountOf oldInv
  let newAmount := amountOf newInv
  if 0 < oldAmount ∧ oldAmount < newAmount then
    let increasePct := (newAmount - oldAmount) / oldAmount * 100
    if threshold ≤ increasePct then
      match mkPriceIncreaseFinding (oldInv.vendor_name.getD "Unknown") oldAmount newAmount
          increasePct oldInv.invoice_date newInv.invoice_date
          (newAmount - oldAmount) (9 / 10) [oldInv.id, newInv.id] with
      | Except.ok f => Except.ok (some f)
      | Except.error e => Except.error e
    else Except.ok none
  else Except.ok none

/-- The `for i in range(len(sorted_invoices) - 1)` loop of
`detect_price_increases` over one date-sorted vendor group; an unhandled
`ValidationError` at any pair aborts the whole loop. -/
def pricePairs (threshold : ℚ) : List InvoiceRow → Except String (List PriceIncreaseFinding)
  | [] => Except.ok []
  | [_] => Except.ok []
  | a :: b :: rest =>
    match mkPriceFinding threshold a b with
    | Except.error e => Except.error e
    | Except.ok none => pricePairs threshold (b :: rest)
    | Except.ok (some f) =>
      match pricePairs threshold (b :: rest) with
      | Except.error e => Except.error e
      | Except.ok l => Except.ok (f :: l)

/-- The vendor loop of `detect_price_increases`: findings of the groups in
key order, aborted by the first `ValidationError`. -/
def priceGroups (threshold : ℚ) (invs : List InvoiceRow) :
    List String → Except String (List PriceIncreaseFinding)
  | [] => Except.ok []
  | v :: vs =>
    match pricePairs threshold (sortByDate (vendorGroup invs v)) with
    | Except.error e => Except.error e
    | Except.ok fs =>
      match priceGroups threshold invs vs with
      | Except.error e => Except.error e
      | Except.ok rest => Except.ok (fs ++ rest)

/-- `DuplicateDetector.detect_price_increases`. -/
def detectPriceIncreases (threshold : ℚ) (invs : List InvoiceRow) :
    Except String (List PriceIncreaseFinding) :=
  priceGroups threshold invs (vendorKeys invs)

/-- `DuplicateDetector._calculate_avg_frequency`. -/
def calculateAvgFrequency (dates : List Int) : ℚ :=
  if dates.length < 2 then 0
  else
    let sortedDates := dates.insertionSort (fun a b => a ≤ b)
    let gaps := (sortedDates.zip sortedDates.tail).map (fun p => ((p.2 - p.1 : Int) : ℚ))
    if gaps.isEmpty then 0 else gaps.sum / (gaps.length : ℚ)

/-- `DuplicateDetector._determine_frequency`. -/
def determineFrequency (avgDays : ℚ) : String :=
  if avgDays < 10 then "weekly"
  else if avgDays < 35 then "monthly"
  else if avgDays < 100 then "quarterly"
  else if avgDays < 400 then "annual"
  else "irregular"

/-- `DuplicateDetector.detect_subscription_sprawl`.  The source's vendor loop
computes the modal amount and the billing frequency but contains no
`findings.append(...)` call, so every vendor group contributes the empty
list and the function always returns `[]`. -/
def detectSubscriptionSprawl (invs : List InvoiceRow) :
    List UnusedSubscriptionFinding :=
  (vendorKeys invs).flatMap (fun _ => ([] : List UnusedSubscriptionFinding))

/-- `DuplicateDetector.calculate_total_waste`: folds `total += finding.amount`
over a findings list; `amount` abstracts Python's duck-typed attribute
access. -/
def calculateTotalWaste {α : Type} (amount : α → ℚ) (findings : List α) : ℚ :=
  findings.foldl (fun t f => t + amount f) 0

/-- The result dictionary of `DuplicateDetector.analyze_all`. -/
structure AnalysisResult where
  duplicates : List DuplicateFinding
  price_increases : List PriceIncreaseFinding
  subscription_sprawl : List UnusedSubscriptionFinding
deriving Repr, DecidableEq

/-- `DuplicateDetector.analyze_all` (the detector's `price_threshold` is the
constructor argument, default `20.0`).  `detect_duplicates` and
`detect_subscription_sprawl` never raise; an unhandled `ValidationError`
from `detect_price_increases` propagates out of `analyze_all`, which then
produces no result dictionary at all. -/
def analyzeAll (threshold : ℚ) (invs : List InvoiceRow) :
    Except String AnalysisResult :=
  match detectPriceIncreases threshold invs with
  | Except.error e => Except.error e
  | Except.ok ps =>
    Except.ok
      { duplicates := detectDuplicates invs
        price_increases := ps
        subscription_sprawl := detectSubscriptionSprawl invs }

/-- Demo input for the C1 witness: an exact duplicate pair plus a later
higher invoice from the same vendor, all dated. -/
def c1rows : List InvoiceRow :=
  [ { id := "a1", vendor_name := some "AWS Inc", vendor_name_normalized := some "awsinc",
      invoice_number := some "AWS-1", invoice_date := some 739000, amount := some 100 },
    { id := "a2", vendor_name := some "AWS Inc", vendor_name_normalized := some "awsinc",
      invoice_number := some "AWS-1", invoice_date := some 739001, amount := some 100 },
    { id := "a3", vendor_name := some "AWS Inc", vendor_name_normalized := some "awsinc",
      invoice_number := some "AWS-2", invoice_date := some 739031, amount := some 150 } ]

/-- The result `analyze_all` produces on `c1rows`: one exact duplicate and
one 50% price increase. -/
def c1result : AnalysisResult :=
  { duplicates :=
      [ { duplicate_type := DuplicateType.exact
          vendor_name := "AWS Inc"
          invoice_count := 2
          amount := 100
          date_range_days := 0
          confidence_score := 49 / 50
          invoice_ids := ["a1", "a2"]
          detail_invoice_number := some "AWS-1"
          detail_charge_amount := some 100
          detail_charged_times := some 2
          detail_dates := [some 739000, some 739001] } ]
    price_increases :=
      [ { vendor_name := "AWS Inc"
          old_amount := 100
          new_amount := 150
          increase_percentage := 50
          old_date := 739001
          new_date := 739031
          amount := 50
          confidence_score := 9 / 10
          invoice_ids := ["a2", "a3"] } ]
    subscription_sprawl := [] }

/-- Demo input for the C3 witness: two same-amount, different-number Zoom
invoices one day apart (a probable-duplicate cluster). -/
def c3rows : List InvoiceRow :=
  [ { id := "p1", vendor_name := some "Zoom", vendor_name_normalized := some "zoom",
      invoice_number := some "Z-1", invoice_date := some 739000, amount := some 149 },
    { id := "p2", vendor_name := some "Zoom", vendor_name_normalized := some "zoom",
      invoice_number := some "Z-2", invoice_date := some 739001, amount := some 149 } ]

/-- The probable finding `detect_duplicates` produces on `c3rows`. -/
def c3finding : DuplicateFinding :=
  { duplicate_type := DuplicateType.probable
    vendor_name := "Zoom"
    invoice_count := 2
    amount := 0
    date_range_days := 1
    confidence_score := 1 / 2
    invoice_ids := ["p1", "p2"]
    detail_charge_amount := some 149
    detail_charged_times := some 2
    detail_dates := [some 739000, some 739001]
    detail_requires_review := true
    detail_potential_waste := some 149 }

/-- Demo input for the C5 witness: a 20.0% increase (100 → 120). -/
def c5old : InvoiceRow :=
  { id := "z1", vendor_name := some "Zoom", vendor_name_normalized := some "zoom",
    invoice_number := some "Z-1", invoice_date := some 739000, amount := some 100 }

/-- Second demo row for the C5 witness. -/
def c5new : InvoiceRow :=
  { id := "z2", vendor_name := some "Zoom", vendor_name_normalized := some "zoom",
    invoice_number := some "Z-2", invoice_date := some 739030, amount := some 120 }

/-- The finding built for the exactly-20% pair `(c5old, c5new)`. -/
def c5finding : PriceIncreaseFinding :=
  { vendor_name := "Zoom"
    old_amount := 100
    new_amount := 120
    increase_percentage := 20
    old_date := 739000
    new_date := 739030
    amount := 20
    confidence_score := 9 / 10
    invoice_ids := ["z1", "z2"] }

/-- C5 counterexample row: a qualifying old invoice with no
`invoice_date`. -/
def c5noDateOld : InvoiceRow :=
  { id := "q1", vendor_name := some "Zoom", vendor_name_normalized := some "zoom",
    invoice_number := some "Q-1", invoice_date := none, amount := some 100 }

/-- C5 counterexample row: the dated, 50%-higher follow-up invoice. -/
def c5noDateNew : InvoiceRow :=
  { id := "q2", vendor_name := some "Zoom", vendor_name_normalized := some "zoom",
    invoice_number := some "Q-2", invoice_date := some 739030, amount := some 150 }

/-- Demo input for the C2 witness: the same AWS invoice charged twice. -/
def c2rows : List InvoiceRow :=
  [ { id := "w1", vendor_name := some "AWS Inc", vendor_name_normalized := some "awsinc",
      invoice_number := some "AWS-1", invoice_date := some 739000, amount := some 2499 },
    { id := "w2", vendor_name := some "AWS Inc", vendor_name_normalized := some "awsinc",
      invoice_number := some "AWS-1", invoice_date := some 739001, amount := some 2499 } ]

/-- Demo input for the C4 witness: three same-amount Netflix invoices billed
30 days apart (a monthly cadence). -/
def c4rows : List InvoiceRow :=
  [ { id := "n1", vendor_name := some "Netflix", vendor_name_normalized := some "netflix",
      invoice_number := some "N-1", invoice_date := some 739000, amount := some 16 },
    { id := "n2", vendor_name := some "Netflix", vendor_name_normalized := some "netflix",
      invoice_number := some "N-2", invoice_date := some 739030, amount := some 16 },
    { id := "n3", vendor_name := some "Netflix", vendor_name_normalized := some "netflix",
      invoice_number := some "N-3", invoice_date := some 739060, amount := some 16 } ]

/-! ### Invoice Field Extractor and models (`invoice_parser.py`,
`gpt_extractor.py`, `models/invoice.py`) -/

/-- `InvoiceParser._calculate_confidence`: sequential score accumulation
(`score += 0.3` for vendor, `0.3` for positive amount, `0.2` for invoice
number, `0.2` for date) capped by `min(score, 1.0)`.  `if vendor:` and
`if invoice_number:` are Python truthiness; `if invoice_date:` is true
exactly when a date is present. -/
def calculateConfidence (vendor : Option String) (amount : ℚ)
    (invoice_number : Option String) (invoice_date : Option Int) : ℚ :=
  let s0 : ℚ := 0
  let s1 : ℚ := if truthyStr vendor then s0 + 3 / 10 else s0
  let s2 : ℚ := if 0 < amount then s1 + 3 / 10 else s1
  let s3 : ℚ := if truthyStr invoice_number then s2 + 2 / 10 else s2
  let s4 : ℚ := if invoice_date.isSome then s3 + 2 / 10 else s3
  min s4 1

/-- The spec's wording of the pattern-strategy confidence, as amended:
independent per-field weights (0.3 vendor, 0.3 positive amount, 0.2 invoice
number, 0.2 date) summed and capped at 1.0. -/
def confidenceSpec (vendor : Option String) (amount : ℚ)
    (invoice_number : Option String) (invoice_date : Option Int) : ℚ :=
  min ((if truthyStr vendor then (3 : ℚ) / 10 else 0)
    + (if 0 < amount then (3 : ℚ) / 10 else 0)
    + (if truthyStr invoice_number then (2 : ℚ) / 10 else 0)
    + (if invoice_date.isSome then (2 : ℚ) / 10 else 0)) 1

/-- `re.sub(r'[^a-zA-Z0-9]', '', vendor).lower()`: the
`normalize_vendor_name` validator of `ParsedInvoice`. -/
def normalizeVendorName (s : String) : String :=
  String.mk ((s.data.filter (fun c => c.isAlphanum)).map Char.toLower)

/-- `ParsedInvoice` (`models/invoice.py`), restricted to the fields the
claims touch. -/
structure ParsedInvoice where
  vendor_name : String
  vendor_name_normalized : String
  amount : ℚ
  currency : String := "USD"
  confidence_score : ℚ := 0
  extraction_method : String := "unknown"
  raw_text : Option String := none
deriving Repr, DecidableEq

/-- Constructing a `ParsedInvoice` through its pydantic validators:
`validate_amount` raises `ValueError("Amount must be positive")` when
`amount <= 0`, and `normalize_vendor_name` fills the normalized name. -/
def mkParsedInvoice (vendor_name : String) (amount : ℚ) (confidence_score : ℚ)
    (extraction_method : String) (raw_text : Option String) :
    Except String ParsedInvoice :=
  if amount ≤ 0 then Except.error "Amount must be positive"
  else
    Except.ok
      { vendor_name := vendor_name
        vendor_name_normalized := normalizeVendorName vendor_name
        amount := amount
        currency := "USD"
        confidence_score := confidence_score
        extraction_method := extraction_method
        raw_text := raw_text }

/-- The fallback construction attempted by the `except` branch of
`GPTInvoiceExtractor.extract_invoice_data`:
`ParsedInvoice(vendor_name="Unknown Vendor", amount=Decimal("0.00"),
currency="USD", confidence_score=0.0, extraction_method="gpt_failed",
raw_text=text[:1000])`.  An `Except.error` models the `ValidationError`
the pydantic validators raise out of that branch. -/
def gptFailureFallback (raw : String) : Except String ParsedInvoice :=
  mkParsedInvoice "Unknown Vendor" 0 0 "gpt_failed" (some raw)

/-- `InvoiceExtractionResult` (`models/invoice.py`). -/
structure InvoiceExtractionResult where
  success : Bool
  invoice : Option ParsedInvoice := none
  error : Option String := none
  source_type : String
deriving Repr, DecidableEq

/-- `InvoiceParser.parse_pdf` on a readable PDF whose GPT call has raised:
if the fallback invoice were built it would be returned with
`success=True`; an exception escaping `extract_invoice_data` is caught by
`parse_pdf`'s own `except` branch, which returns `success=False` with the
exception's message and no invoice. -/
def parsePdfAfterGptFailure (raw : String) : InvoiceExtractionResult :=
  match gptFailureFallback raw with
  | Except.ok inv => { success := true, invoice := some inv, source_type := "pdf" }
  | Except.error e => { success := false, error := some e, source_type := "pdf" }

/-! ### Relevance classifier (`gmail_service.py`) -/

/-- The `invoice_keywords` allow-list of `GmailService.is_invoice_related`. -/
def invoiceKeywords : List String :=
  ["invoice", "receipt", "payment", "billing", "order", "purchase",
   "subscription", "charge", "total", "amount due", "paid"]

/-- The `quote_keywords` deny-list of `GmailService.is_invoice_related`. -/
def quoteKeywords : List String :=
  ["quote", "quotation", "estimate", "proposal", "pro forma", "proforma"]

/-- Character-wise prefix test (`needle` then `hay`). -/
def chPrefix : List Char → List Char → Bool
  | [], _ => true
  | _ :: _, [] => false
  | a :: as, b :: bs => a == b && chPrefix as bs

/-- Python's substring containment `needle in hay` on character sequences. -/
def chContains : List Char → List Char → Bool
  | [], needle => needle.isEmpty
  | h :: t, needle => chPrefix needle (h :: t) || chContains t needle

/-- Python `s.endswith(t)` on character sequences. -/
def chEndsWith (s t : List Char) : Bool :=
  chPrefix t.reverse s.reverse

/-- Python `s.lower()`: ASCII lowercasing of the character sequence. -/
def lowerStr (s : String) : List Char :=
  s.data.map Char.toLower

/-- `any(keyword in text for keyword in kws)`. -/
def hasAnyKeyword (text : List Char) (kws : List String) : Bool :=
  kws.any (fun k => chContains text k.data)

/-- An email as handed to `is_invoice_related`: `subject`/`body` from
`email.get(..., "")`, `attachments` the list of attachment filenames. -/
structure EmailMsg where
  subject : Option String := none
  body : Option String := none
  attachments : List String := []
deriving Repr, DecidableEq

/-- The attachment loop of `is_invoice_related`: the first attachment whose
lowered filename holds a deny keyword rejects the email; otherwise a `.pdf`
suffix or an `invoice` substring accepts it; an exhausted loop rejects. -/
def checkAttachments : List String → Bool
  | [] => false
  | f :: rest =>
    let fl := lowerStr f
    if hasAnyKeyword fl quoteKeywords then false
    else if chEndsWith fl ".pdf".data || chContains fl "invoice".data then true
    else checkAttachments rest

/-- `GmailService.is_invoice_related`. -/
def isInvoiceRelated (email : EmailMsg) : Bool :=
  let subject := lowerStr (email.subject.getD "")
  if hasAnyKeyword subject quoteKeywords then false
  else if hasAnyKeyword subject invoiceKeywords then true
  else
    let body := lowerStr (email.body.getD "")
    if hasAnyKeyword body quoteKeywords then false
    else if hasAnyKeyword body invoiceKeywords then true
    else checkAttachments email.attachments

/-! ### C9: deny-list precedence (corrected) -/

/-- C9 counterexample: the subject matches the invoice allow-list, the body
holds the deny keyword "quote", yet `is_invoice_related` accepts the email:
the subject allow-check runs before the body deny-check. -/
def c9email : EmailMsg :=
  { subject := some "Your invoice"
    body := some "Please see the attached quote"
    attachments := [] }

/-- Demo email for the C9 witness: both a deny and an allow keyword in the
subject. -/
def c9subjectDeny : EmailMsg :=
  { subject := some "Quote for invoice services", body := some "", attachments := [] }

/-- Demo email for the C9 witness: neutral subject, deny keyword in body. -/
def c9bodyDeny : EmailMsg :=
  { subject := some "hello", body := some "here is our quote", attachments := [] }

/-- Demo email for the C9 witness: subject and body match neither list, an
attachment filename holds a deny keyword. -/
def c9attDeny : EmailMsg :=
  { subject := some "hello", body := some "greetings", attachments := ["Quote.pdf"] }

/-! ### C10: missing normalized vendor names collapse to "unknown" -/

/-- Demo rows for C10: two invoices from different real vendors, both
without a `vendor_name_normalized` key, sharing invoice number and amount. -/
def c10dupRows : List InvoiceRow :=
  [ { id := "u1", vendor_name := some "Acme Corp", vendor_name_normalized := none,
      invoice_number := some "X-9", invoice_date := some 739000, amount := some 50 },
    { id := "u2", vendor_name := some "Globex LLC", vendor_name_normalized := none,
      invoice_number := some "X-9", invoice_date := some 739003, amount := some 50 } ]

/-- Demo rows for C10: two invoices from different real vendors, both
without a `vendor_name_normalized` key, with rising amounts. -/
def c10priceRows : List InvoiceRow :=
  [ { id := "u3", vendor_name := some "Acme Corp", vendor_name_normalized := none,
      invoice_number := some "A-1", invoice_date := some 739000, amount := some 100 },
    { id := "u4", vendor_name := some "Globex LLC", vendor_name_normalized := none,
      invoice_number := some "G-7", invoice_date := some 739030, amount := some 150 } ]

/-- The price-increase finding the detector produces on `c10priceRows`. -/
def c10price : PriceIncreaseFinding :=
  { vendor_name := "Acme Corp"
    old_amount := 100
    new_amount := 150
    increase_percentage := 50
    old_date := 739000
    new_date := 739030
    amount := 50
    confidence_score := 9 / 10
    invoice_ids := ["u3", "u4"] }

/-! ## Theorems -/

/-! ### Helper lemmas about the grouping primitives -/

theorem mem_dedupAux {α : Type} [DecidableEq α] {a : α} :
    ∀ {l seen : List α}, a ∈ dedupAux seen l ↔ a ∈ l ∧ a ∉ seen := by
  intro l
  induction l with
  | nil => intro seen; simp [dedupAux]
  | cons x xs ih =>
    intro seen
    by_cases hx : x ∈ seen
    · rw [dedupAux, if_pos hx, ih]
      constructor
      · rintro ⟨h1, h2⟩; exact ⟨List.mem_cons_of_mem x h1, h2⟩
      · rintro ⟨h1, h2⟩
        rcases List.mem_cons.mp h1 with rfl | h1
        · exact absurd hx h2
        · exact ⟨h1, h2⟩
    · rw [dedupAux, if_neg hx]
      by_cases hax : a = x
      · subst hax; simp [hx]
      · simp only [List.mem_cons, hax, false_or, ih]

theorem mem_dedupKeepFirst {α : Type} [DecidableEq α] {a : α} {l : List α} :
    a ∈ dedupKeepFirst l ↔ a ∈ l := by
  rw [dedupKeepFirst, mem_dedupAux]
  simp

theorem nodup_dedupAux {α : Type} [DecidableEq α] :
    ∀ (l seen : List α), (dedupAux seen l).Nodup := by
  intro l
  induction l with
  | nil => intro seen; simp [dedupAux]
  | cons x xs ih =>
    intro seen
    by_cases hx : x ∈ seen
    · rw [dedupAux, if_pos hx]; exact ih seen
    · rw [dedupAux, if_neg hx]
      refine List.nodup_cons.mpr ⟨?_, ih (x :: seen)⟩
      intro hmem
      exact (mem_dedupAux.mp hmem).2 (List.mem_cons_self x seen)

theorem nodup_dedupKeepFirst {α : Type} [DecidableEq α] (l : List α) :
    (dedupKeepFirst l).Nodup :=
  nodup_dedupAux l []

theorem dedupAux_eq_nil {α : Type} [DecidableEq α] :
    ∀ {l seen : List α}, (∀ x ∈ l, x ∈ seen) → dedupAux seen l = [] := by
  intro l
  induction l with
  | nil => intro seen _; rfl
  | cons x xs ih =>
    intro seen hall
    rw [dedupAux, if_pos (hall x (List.mem_cons_self x xs))]
    exact ih (fun y hy => hall y (List.mem_cons_of_mem x hy))

theorem dedupKeepFirst_eq_single {α : Type} [DecidableEq α] {a : α} :
    ∀ {l : List α}, l ≠ [] → (∀ x ∈ l, x = a) → dedupKeepFirst l = [a] := by
  intro l hne hall
  match l with
  | [] => exact absurd rfl hne
  | x :: xs =>
    have hx : x = a := hall x (List.mem_cons_self x xs)
    subst hx
    rw [dedupKeepFirst, dedupAux, if_neg (List.not_mem_nil x)]
    rw [dedupAux_eq_nil]
    intro y hy
    have : y = x := hall y (List.mem_cons_of_mem x hy)
    simp [this]

theorem calculateTotalWaste_eq_sum {α : Type} (amount : α → ℚ) (l : List α) :
    calculateTotalWaste amount l = (l.map amount).sum := by
  have aux : ∀ (l : List α) (t : ℚ),
      l.foldl (fun t f => t + amount f) t = t + (l.map amount).sum := by
    intro l
    induction l with
    | nil => intro t; simp
    | cons x xs ih => intro t; simp [ih, add_assoc]
  simpa using aux l 0

theorem sum_map_filter_of_zero {α : Type} (f : α → ℚ) (p : α → Bool) :
    ∀ (l : List α), (∀ x ∈ l, p x = false → f x = 0) →
      ((l.filter p).map f).sum = (l.map f).sum := by
  intro l
  induction l with
  | nil => simp
  | cons x xs ih =>
    intro h
    have hxs := fun y hy => h y (List.mem_cons_of_mem x hy)
    by_cases hx : p x = true
    · simp [List.filter_cons, hx, ih hxs]
    · have hx0 : f x = 0 := h x (List.mem_cons_self x xs) (by simpa using hx)
      simp [List.filter_cons, hx, ih hxs, hx0]

theorem flatMap_const_nil {α β : Type} :
    ∀ (l : List α), l.flatMap (fun _ => ([] : List β)) = [] := by
  intro l
  induction l with
  | nil => rfl
  | cons x xs ih => simp [List.flatMap_cons, ih]

/-! ### Shape lemmas for the finding constructors -/

theorem mkExactFinding_some {n : String} {d : List InvoiceRow}
    {f : DuplicateFinding} (h : mkExactFinding n d = some f) :
    f.duplicate_type = DuplicateType.exact ∧ f.confidence_score = 98 / 100
      ∧ f.detail_invoice_number = some n ∧ f.invoice_count = d.length
      ∧ ∃ d0 rest, d = d0 :: rest ∧ f.amount = amountOf d0 * ((d.length : ℚ) - 1) := by
  match d with
  | [] => simp [mkExactFinding] at h
  | d0 :: rest =>
    rw [mkExactFinding] at h
    split at h
    · split at h
      · cases h
        refine ⟨rfl, rfl, rfl, rfl, d0, rest, rfl, rfl⟩
      · cases h
    · cases h

theorem mkExactFinding_isSome {n : String} {d0 : InvoiceRow}
    {rest : List InvoiceRow} {a : ℚ}
    (hlen : 2 ≤ (d0 :: rest).length)
    (ha : ∀ i ∈ d0 :: rest, amountOf i = a) :
    (mkExactFinding n (d0 :: rest)).isSome = true := by
  rw [mkExactFinding]
  have h1 : 1 < (d0 :: rest).length := hlen
  have h2 : dedupKeepFirst ((d0 :: rest).map amountOf) = [a] := by
    refine dedupKeepFirst_eq_single (by simp) ?_
    intro x hx
    rcases List.mem_map.mp hx with ⟨i, hi, rfl⟩
    exact ha i hi
  rw [if_pos h1, if_pos (by rw [h2]; rfl)]
  rfl

theorem mkProbableFinding_some {a : ℚ} {ag c : List InvoiceRow}
    {f : DuplicateFinding} (h : mkProbableFinding a ag c = some f) :
    f.duplicate_type = DuplicateType.probable ∧ f.amount = 0
      ∧ f.confidence_score = 1 / 2 ∧ f.detail_requires_review = true
      ∧ f.detail_charge_amount = some a ∧ f.invoice_count = c.length
      ∧ f.detail_potential_waste = some (a * ((c.length : ℚ) - 1))
      ∧ isLikelySubscription ag = false := by
  match c with
  | [] => simp [mkProbableFinding] at h
  | c0 :: crest =>
    rw [mkProbableFinding] at h
    dsimp only at h
    repeat' split at h
    all_goals cases h
    all_goals
      refine ⟨rfl, rfl, rfl, rfl, rfl, rfl, rfl, ?_⟩
      simp_all

theorem mkPriceIncreaseFinding_ok {vendor : String} {oldA newA pct : ℚ}
    {od nd : Option Int} {amt conf : ℚ} {ids : List String}
    {f : PriceIncreaseFinding}
    (h : mkPriceIncreaseFinding vendor oldA newA pct od nd amt conf ids = Except.ok f) :
    od = some f.old_date ∧ nd = some f.new_date
      ∧ f.old_amount = oldA ∧ f.new_amount = newA
      ∧ f.amount = amt ∧ f.confidence_score = conf := by
  rcases od with _ | o
  · exact Except.noConfusion h
  · rcases nd with _ | n
    · exact Except.noConfusion h
    · injection h with h2
      subst h2
      exact ⟨rfl, rfl, rfl, rfl, rfl, rfl⟩

theorem mkPriceFinding_ok_some {threshold : ℚ} {oldInv newInv : InvoiceRow}
    {f : PriceIncreaseFinding}
    (h : mkPriceFinding threshold oldInv newInv = Except.ok (some f)) :
    f.amount = amountOf newInv - amountOf oldInv
      ∧ f.new_amount = amountOf newInv ∧ f.old_amount = amountOf oldInv
      ∧ f.confidence_score = 9 / 10
      ∧ 0 < amountOf oldInv ∧ amountOf oldInv < amountOf newInv
      ∧ threshold ≤ (amountOf newInv - amountOf oldInv) / amountOf oldInv * 100
      ∧ oldInv.invoice_date = some f.old_date
      ∧ newInv.invoice_date = some f.new_date := by
  rw [mkPriceFinding] at h
  dsimp only at h
  split at h
  · rename_i hcmp
    split at h
    · rename_i hthr
      split at h
      · rename_i g heq
        injection h with h2
        injection h2 with h3
        subst h3
        obtain ⟨hod, hnd, hoa, hna, hamt, hconf⟩ := mkPriceIncreaseFinding_ok heq
        exact ⟨hamt, hna, hoa, hconf, hcmp.1, hcmp.2, hthr, hod, hnd⟩
      · simp at h
    · simp at h
  · simp at h

theorem mkPriceFinding_emits_iff {threshold : ℚ} {oldInv newInv : InvoiceRow}
    (hod : oldInv.invoice_date.isSome = true)
    (hnd : newInv.invoice_date.isSome = true)
    (hpos : 0 < amountOf oldInv) (hgt : amountOf oldInv < amountOf newInv) :
    (∃ f, mkPriceFinding threshold oldInv newInv = Except.ok (some f))
      ↔ threshold ≤ (amountOf newInv - amountOf oldInv) / amountOf oldInv * 100 := by
  rw [mkPriceFinding]
  dsimp only
  rw [if_pos ⟨hpos, hgt⟩]
  rcases Option.isSome_iff_exists.mp hod with ⟨od, hod2⟩
  rcases Option.isSome_iff_exists.mp hnd with ⟨nd, hnd2⟩
  rw [hod2, hnd2]
  constructor
  · rintro ⟨f, hf⟩
    by_contra hthr
    rw [if_neg hthr] at hf
    simp at hf
  · intro hthr
    rw [if_pos hthr]
    exact ⟨_, rfl⟩

theorem mkPriceFinding_error_of_missing_date {threshold : ℚ}
    {oldInv newInv : InvoiceRow}
    (hpos : 0 < amountOf oldInv) (hgt : amountOf oldInv < amountOf newInv)
    (hthr : threshold ≤ (amountOf newInv - amountOf oldInv) / amountOf oldInv * 100)
    (hmiss : oldInv.invoice_date = none ∨ newInv.invoice_date = none) :
    mkPriceFinding threshold oldInv newInv
      = Except.error "ValidationError: old_date and new_date are required dates" := by
  rw [mkPriceFinding]
  dsimp only
  rw [if_pos ⟨hpos, hgt⟩, if_pos hthr]
  rcases hmiss with h | h
  · rw [h]
    rfl
  · rw [h]
    rcases oldInv.invoice_date with _ | o <;> rfl

/-! ### Detector-level shape lemmas -/

theorem pricePairs_ok_mem_iff {threshold : ℚ} :
    ∀ (s : List InvoiceRow) (l : List PriceIncreaseFinding),
      pricePairs threshold s = Except.ok l →
      ∀ f, f ∈ l ↔
        ∃ p ∈ s.zip s.tail, mkPriceFinding threshold p.1 p.2 = Except.ok (some f) := by
  intro s
  induction s with
  | nil =>
    intro l hl f
    cases hl
    simp
  | cons a s ih =>
    cases s with
    | nil =>
      intro l hl f
      cases hl
      simp
    | cons b rest =>
      intro l hl f
      rw [pricePairs] at hl
      rcases hmk : mkPriceFinding threshold a b with e | of
      · rw [hmk] at hl
        simp at hl
      · rw [hmk] at hl
        rcases of with _ | g
        · dsimp only at hl
          have hiff := ih l hl f
          simp only [List.tail_cons, List.zip_cons_cons, List.mem_cons]
          constructor
          · intro hf
            rcases hiff.mp hf with ⟨p, hp, hpf⟩
            exact ⟨p, Or.inr (by simpa using hp), hpf⟩
          · rintro ⟨p, hp, hpf⟩
            rcases hp with rfl | hp2
            · rw [hmk] at hpf
              simp at hpf
            · exact hiff.mpr ⟨p, by simpa using hp2, hpf⟩
        · dsimp only at hl
          rcases hrec : pricePairs threshold (b :: rest) with e2 | l2
          · rw [hrec] at hl
            simp at hl
          · rw [hrec] at hl
            injection hl with h2
            subst h2
            have hiff := ih l2 hrec f
            simp only [List.tail_cons, List.zip_cons_cons, List.mem_cons]
            constructor
            · intro hf
              rcases hf with rfl | hf2
              · exact ⟨(a, b), Or.inl rfl, hmk⟩
              · rcases hiff.mp hf2 with ⟨p, hp, hpf⟩
                exact ⟨p, Or.inr (by simpa using hp), hpf⟩
            · rintro ⟨p, hp, hpf⟩
              rcases hp with rfl | hp2
              · rw [hmk] at hpf
                injection hpf with h3
                injection h3 with h4
                exact Or.inl h4.symm
              · exact Or.inr (hiff.mpr ⟨p, by simpa using hp2, hpf⟩)

theorem priceGroups_shape {threshold : ℚ} {invs : List InvoiceRow} :
    ∀ (vs : List String) (ps : List PriceIncreaseFinding),
      priceGroups threshold invs vs = Except.ok ps →
      ∀ f ∈ ps, f.amount = f.new_amount - f.old_amount
        ∧ f.confidence_score = 9 / 10 := by
  intro vs
  induction vs with
  | nil =>
    intro ps h f hf
    cases h
    simp at hf
  | cons v vs ih =>
    intro ps h f hf
    rw [priceGroups] at h
    rcases hp : pricePairs threshold (sortByDate (vendorGroup invs v)) with e | fs
    · rw [hp] at h
      simp at h
    · rw [hp] at h
      dsimp only at h
      rcases hg : priceGroups threshold invs vs with e2 | rest
      · rw [hg] at h
        simp at h
      · rw [hg] at h
        injection h with h2
        subst h2
        rcases List.mem_append.mp hf with hf1 | hf2
        · rcases (pricePairs_ok_mem_iff _ fs hp f).mp hf1 with ⟨p, -, hpf⟩
          obtain ⟨h1, h2, h3, h4, -⟩ := mkPriceFinding_ok_some hpf
          exact ⟨by rw [h1, h2, h3], h4⟩
        · exact ih rest hg f hf2

theorem priceGroups_group_sub {threshold : ℚ} {invs : List InvoiceRow} :
    ∀ (vs : List String) (ps : List PriceIncreaseFinding),
      priceGroups threshold invs vs = Except.ok ps →
      ∀ v ∈ vs, ∃ l, pricePairs threshold (sortByDate (vendorGroup invs v)) = Except.ok l
        ∧ ∀ f ∈ l, f ∈ ps := by
  intro vs
  induction vs with
  | nil =>
    intro ps h v hv
    simp at hv
  | cons w vs ih =>
    intro ps h v hv
    rw [priceGroups] at h
    rcases hp : pricePairs threshold (sortByDate (vendorGroup invs w)) with e | fs
    · rw [hp] at h
      simp at h
    · rw [hp] at h
      dsimp only at h
      rcases hg : priceGroups threshold invs vs with e2 | rest
      · rw [hg] at h
        simp at h
      · rw [hg] at h
        injection h with h2
        subst h2
        rcases List.mem_cons.mp hv with rfl | hv2
        · exact ⟨fs, hp, fun f hf => List.mem_append_left rest hf⟩
        · rcases ih rest hg v hv2 with ⟨l, hl, hsub⟩
          exact ⟨l, hl, fun f hf => List.mem_append_right fs (hsub f hf)⟩

theorem detectPriceIncreases_shape {threshold : ℚ} {invs : List InvoiceRow}
    {ps : List PriceIncreaseFinding}
    (h : detectPriceIncreases threshold invs = Except.ok ps) :
    ∀ f ∈ ps, f.amount = f.new_amount - f.old_amount
      ∧ f.confidence_score = 9 / 10 :=
  priceGroups_shape (vendorKeys invs) ps h

theorem exactFindingsFor_shape {g : List InvoiceRow} {f : DuplicateFinding}
    (h : f ∈ exactFindingsFor g) :
    f.duplicate_type = DuplicateType.exact ∧ f.confidence_score = 98 / 100 := by
  rcases List.mem_filterMap.mp h with ⟨m, _, hmk⟩
  obtain ⟨h1, h2, -⟩ := mkExactFinding_some hmk
  exact ⟨h1, h2⟩

theorem probableFindingsFor_shape {g : List InvoiceRow} {f : DuplicateFinding}
    (h : f ∈ probableFindingsFor g) :
    f.duplicate_type = DuplicateType.probable ∧ f.amount = 0
      ∧ f.confidence_score = 1 / 2 ∧ f.detail_requires_review = true
      ∧ f.detail_potential_waste
          = f.detail_charge_amount.map (fun c => c * ((f.invoice_count : ℚ) - 1)) := by
  rw [probableFindingsFor] at h
  rcases List.mem_flatMap.mp h with ⟨a, _, hin⟩
  dsimp only at hin
  split at hin
  · simp at hin
  · rcases List.mem_filterMap.mp hin with ⟨c, _, hmk⟩
    obtain ⟨h1, h2, h3, h4, h5, h6, h7, -⟩ := mkProbableFinding_some hmk
    exact ⟨h1, h2, h3, h4, by rw [h5, h7, h6]; rfl⟩

theorem detectDuplicates_shape {invs : List InvoiceRow} {f : DuplicateFinding}
    (h : f ∈ detectDuplicates invs) :
    f.duplicate_type = DuplicateType.exact
      ∨ (f.duplicate_type = DuplicateType.probable ∧ f.amount = 0
          ∧ f.confidence_score = 1 / 2 ∧ f.detail_requires_review = true
          ∧ f.detail_potential_waste
              = f.detail_charge_amount.map (fun c => c * ((f.invoice_count : ℚ) - 1))) := by
  rcases List.mem_flatMap.mp h with ⟨v, _, hin⟩
  rcases List.mem_append.mp hin with hex | hpr
  · exact Or.inl (exactFindingsFor_shape hex).1
  · exact Or.inr (probableFindingsFor_shape hpr)

/-! ### C1: guaranteed-waste accounting -/

/-- C1: On every input on which `analyze_all` completes (its unhandled
`ValidationError` path aside), summing the `amount` field over all findings
it produced (as `calculate_total_waste` does over the three lists) equals
the sum of exact-duplicate finding amounts plus the sum of price-increase
deltas; probable findings all carry amount 0 and subscription-sprawl
findings are absent, so neither contributes to guaranteed waste. -/
theorem guaranteed_waste_accounting (threshold : ℚ) (invs : List InvoiceRow) :
    ∀ r, analyzeAll threshold invs = Except.ok r →
      calculateTotalWaste (fun f => f.amount) r.duplicates
        + calculateTotalWaste (fun f => f.amount) r.price_increases
        + calculateTotalWaste (fun f => f.amount) r.subscription_sprawl
        = ((r.duplicates.filter
              (fun f => f.duplicate_type == DuplicateType.exact)).map (fun f => f.amount)).sum
          + (r.price_increases.map (fun f => f.new_amount - f.old_amount)).sum
      ∧ (∀ f ∈ r.duplicates, f.duplicate_type ≠ DuplicateType.exact → f.amount = 0)
      ∧ r.subscription_sprawl = [] := by
  intro r hr
  rw [analyzeAll] at hr
  rcases hps : detectPriceIncreases threshold invs with e | ps
  · rw [hps] at hr
    simp at hr
  · rw [hps] at hr
    dsimp only at hr
    injection hr with hr2
    subst hr2
    have hzero : ∀ f ∈ detectDuplicates invs,
        (f.duplicate_type == DuplicateType.exact) = false → f.amount = 0 := by
      intro f hf hne
      rcases detectDuplicates_shape hf with hex | hpr
      · rw [hex] at hne; simp at hne
      · exact hpr.2.1
    have hsprawl : detectSubscriptionSprawl invs = [] := flatMap_const_nil _
    refine ⟨?_, ?_, hsprawl⟩
    · have hp : ps.map (fun f => f.amount)
          = ps.map (fun f => f.new_amount - f.old_amount) :=
        List.map_congr_left (fun f hf => (detectPriceIncreases_shape hps f hf).1)
      have hd := sum_map_filter_of_zero (fun f => f.amount)
        (fun f => f.duplicate_type == DuplicateType.exact) (detectDuplicates invs) hzero
      rw [calculateTotalWaste_eq_sum, calculateTotalWaste_eq_sum, calculateTotalWaste_eq_sum,
        hsprawl, hd, ← hp]
      simp
    · intro f hf hne
      refine hzero f hf ?_
      simpa using hne

theorem guaranteed_waste_accounting_witness :
    calculateTotalWaste (fun f => f.amount) c1result.duplicates
      + calculateTotalWaste (fun f => f.amount) c1result.price_increases
      + calculateTotalWaste (fun f => f.amount) c1result.subscription_sprawl
      = ((c1result.duplicates.filter
            (fun f => f.duplicate_type == DuplicateType.exact)).map (fun f => f.amount)).sum
        + (c1result.price_increases.map (fun f => f.new_amount - f.old_amount)).sum
    ∧ (∀ f ∈ c1result.duplicates,
        f.duplicate_type ≠ DuplicateType.exact → f.amount = 0)
    ∧ c1result.subscription_sprawl = [] :=
  guaranteed_waste_accounting 20 c1rows c1result
    (by
      norm_num +decide [analyzeAll, detectPriceIncreases, priceGroups, pricePairs,
        mkPriceFinding, mkPriceIncreaseFinding, detectDuplicates, detectSubscriptionSprawl,
        vendorKeys, vendorGroup, dedupKeepFirst, dedupAux, vendorKey, exactFindingsFor,
        probableFindingsFor, numberKeys, numberGroup, mkExactFinding, amountKeys,
        amountGroup, sortByDate, temporalClusters, clustersAux, mkProbableFinding,
        isLikelySubscription, datedSorted, subIntervals, avgInterval, inSubscriptionBand,
        subscriptionPatterns, amountOf, dateKey, dateMin, truthyStr, c1rows, c1result,
        List.insertionSort, List.orderedInsert, List.filterMap_cons, List.filterMap_nil,
        List.min?, List.max?, List.foldl])

/-! ### C3: probable findings never carry guaranteed waste -/

/-- C3: Every probable `DuplicateFinding` emitted by `detect_duplicates` has
amount `0.00`, confidence `0.50`, `details.requires_review = true`, and
`details.potential_waste` equal to the cluster's shared charge amount times
`(cluster_size - 1)` (the finding records the shared amount as
`details.charge_amount` and the cluster size as `invoice_count`). -/
theorem probable_findings_zero_waste (invs : List InvoiceRow) :
    ∀ f ∈ detectDuplicates invs, f.duplicate_type = DuplicateType.probable →
      f.amount = 0 ∧ f.confidence_score = 1 / 2 ∧ f.detail_requires_review = true
        ∧ f.detail_potential_waste
            = f.detail_charge_amount.map (fun c => c * ((f.invoice_count : ℚ) - 1)) := by
  intro f hf hp
  rcases detectDuplicates_shape hf with hex | hpr
  · exact absurd (hex.symm.trans hp) (by decide)
  · exact ⟨hpr.2.1, hpr.2.2.1, hpr.2.2.2.1, hpr.2.2.2.2⟩

theorem probable_findings_zero_waste_witness :
    c3finding.amount = 0 ∧ c3finding.confidence_score = 1 / 2
      ∧ c3finding.detail_requires_review = true
      ∧ c3finding.detail_potential_waste
          = c3finding.detail_charge_amount.map
              (fun c => c * ((c3finding.invoice_count : ℚ) - 1)) :=
  probable_findings_zero_waste c3rows c3finding
    (by
      have h : detectDuplicates c3rows = [c3finding] := by
        norm_num +decide [detectDuplicates, vendorKeys, vendorGroup, dedupKeepFirst, dedupAux,
          vendorKey, exactFindingsFor, probableFindingsFor, numberKeys, numberGroup,
          mkExactFinding, amountKeys, amountGroup, sortByDate, temporalClusters, clustersAux,
          mkProbableFinding, isLikelySubscription, datedSorted, subIntervals, avgInterval,
          inSubscriptionBand, subscriptionPatterns, amountOf, dateKey, dateMin, truthyStr,
          c3rows, c3finding, List.insertionSort, List.orderedInsert,
          List.filterMap_cons, List.filterMap_nil, List.min?, List.max?, List.foldl]
      rw [h]
      exact List.mem_singleton.mpr rfl)
    rfl

/-! ### C5: price-increase detection at the default threshold -/

/-- C5 counterexample: a qualifying consecutive pair (old 100 > 0,
new 150 > 100, 50% ≥ 20%) whose older invoice has no `invoice_date`.  The
program flags nothing there: the `PriceIncreaseFinding` constructor's
required-date validation raises, `detect_price_increases` aborts with the
error, and no finding is emitted — refuting the claim's unconditional
"emits iff pct ≥ 20". -/
theorem price_increase_missing_date_counterexample :
    0 < amountOf c5noDateOld
    ∧ amountOf c5noDateOld < amountOf c5noDateNew
    ∧ 20 ≤ (amountOf c5noDateNew - amountOf c5noDateOld) / amountOf c5noDateOld * 100
    ∧ detectPriceIncreases 20 [c5noDateOld, c5noDateNew]
        = Except.error "ValidationError: old_date and new_date are required dates" := by
  refine ⟨by norm_num [amountOf, c5noDateOld],
    by norm_num [amountOf, c5noDateOld, c5noDateNew],
    by norm_num [amountOf, c5noDateOld, c5noDateNew], ?_⟩
  norm_num +decide [detectPriceIncreases, priceGroups, pricePairs, mkPriceFinding,
    mkPriceIncreaseFinding, vendorKeys, vendorGroup, dedupKeepFirst, dedupAux, vendorKey,
    sortByDate, amountOf, dateKey, dateMin, c5noDateOld, c5noDateNew,
    List.insertionSort, List.orderedInsert]

/-- C5 (as amended): Within each date-sorted vendor group,
`detect_price_increases` processes every consecutive pair; for a pair of
dated invoices with positive old amount and a strictly larger new amount a
finding is emitted iff `(new - old)/old * 100 ≥ 20` (the default
threshold, compared with `≥`), every emitted finding carries
`amount = new - old` and confidence `0.90`, the findings of a successful
run are exactly those of the qualifying consecutive pairs (not just the
first or last), and a qualifying pair with a missing date instead raises
the required-date `ValidationError`, aborting detection. -/
theorem price_increase_threshold :
    (∀ oldInv newInv f, mkPriceFinding 20 oldInv newInv = Except.ok (some f) →
        f.amount = amountOf newInv - amountOf oldInv ∧ f.confidence_score = 9 / 10
          ∧ oldInv.invoice_date = some f.old_date
          ∧ newInv.invoice_date = some f.new_date)
    ∧ (∀ oldInv newInv, oldInv.invoice_date.isSome = true →
        newInv.invoice_date.isSome = true → 0 < amountOf oldInv →
        amountOf oldInv < amountOf newInv →
        ((∃ f, mkPriceFinding 20 oldInv newInv = Except.ok (some f))
          ↔ 20 ≤ (amountOf newInv - amountOf oldInv) / amountOf oldInv * 100))
    ∧ (∀ (s : List InvoiceRow) (l : List PriceIncreaseFinding),
        pricePairs 20 s = Except.ok l →
        ∀ f, f ∈ l ↔
          ∃ p ∈ s.zip s.tail, mkPriceFinding 20 p.1 p.2 = Except.ok (some f))
    ∧ (∀ oldInv newInv, 0 < amountOf oldInv → amountOf oldInv < amountOf newInv →
        20 ≤ (amountOf newInv - amountOf oldInv) / amountOf oldInv * 100 →
        (oldInv.invoice_date = none ∨ newInv.invoice_date = none) →
        mkPriceFinding 20 oldInv newInv
          = Except.error "ValidationError: old_date and new_date are required dates")
    ∧ (∀ (invs : List InvoiceRow) (ps : List PriceIncreaseFinding) (v : String),
        detectPriceIncreases 20 invs = Except.ok ps → v ∈ vendorKeys invs →
        ∃ l, pricePairs 20 (sortByDate (vendorGroup invs v)) = Except.ok l
          ∧ ∀ f ∈ l, f ∈ ps) := by
  refine ⟨?_, ?_, ?_, ?_, ?_⟩
  · intro oldInv newInv f h
    obtain ⟨h1, h2, h3, h4, -, -, -, h5, h6⟩ := mkPriceFinding_ok_some h
    exact ⟨by rw [h1], h4, h5, h6⟩
  · intro oldInv newInv hod hnd hpos hgt
    exact mkPriceFinding_emits_iff hod hnd hpos hgt
  · intro s l hl f
    exact pricePairs_ok_mem_iff s l hl f
  · intro oldInv newInv hpos hgt hthr hmiss
    exact mkPriceFinding_error_of_missing_date hpos hgt hthr hmiss
  · intro invs ps v hps hv
    exact priceGroups_group_sub (vendorKeys invs) ps hps v hv

theorem price_increase_threshold_witness :
    ((∃ f, mkPriceFinding 20 c5old c5new = Except.ok (some f))
      ↔ 20 ≤ (amountOf c5new - amountOf c5old) / amountOf c5old * 100)
    ∧ (c5finding.amount = amountOf c5new - amountOf c5old
        ∧ c5finding.confidence_score = 9 / 10
        ∧ c5old.invoice_date = some c5finding.old_date
        ∧ c5new.invoice_date = some c5finding.new_date)
    ∧ mkPriceFinding 20 c5noDateOld c5noDateNew
        = Except.error "ValidationError: old_date and new_date are required dates" :=
  ⟨price_increase_threshold.2.1 c5old c5new (by decide) (by decide)
      (by norm_num [amountOf, c5old]) (by norm_num [amountOf, c5old, c5new]),
    price_increase_threshold.1 c5old c5new c5finding
      (by
        norm_num +decide [mkPriceFinding, mkPriceIncreaseFinding, amountOf,
          c5old, c5new, c5finding]),
    price_increase_threshold.2.2.2.1 c5noDateOld c5noDateNew
      (by norm_num [amountOf, c5noDateOld])
      (by norm_num [amountOf, c5noDateOld, c5noDateNew])
      (by norm_num [amountOf, c5noDateOld, c5noDateNew])
      (Or.inl rfl)⟩

/-! ### C2: exact duplicate detection -/

/-- C2: For every vendor group and non-empty invoice number `n` whose bucket
(the invoices of the group carrying `n`) has at least two members, all with
the identical amount `a`, `_find_exact_duplicates` emits exactly one exact
`DuplicateFinding` for `n`, with amount `a * (count - 1)` and confidence
`0.98`; every such finding is part of `detect_duplicates`' output. -/
theorem exact_duplicate_emission (invs : List InvoiceRow) (v n : String) (a : ℚ)
    (hn : n ≠ "")
    (hlen : 2 ≤ (numberGroup (vendorGroup invs v) n).length)
    (ha : ∀ i ∈ numberGroup (vendorGroup invs v) n, amountOf i = a) :
    (exactFindingsFor (vendorGroup invs v)).countP
        (fun f => f.detail_invoice_number == some n) = 1
    ∧ (∀ f ∈ exactFindingsFor (vendorGroup invs v),
        f.detail_invoice_number = some n →
          f.duplicate_type = DuplicateType.exact
            ∧ f.amount = a * (((numberGroup (vendorGroup invs v) n).length : ℚ) - 1)
            ∧ f.confidence_score = 98 / 100
            ∧ f.invoice_count = (numberGroup (vendorGroup invs v) n).length)
    ∧ (∀ f ∈ exactFindingsFor (vendorGroup invs v), f ∈ detectDuplicates invs) := by
  have hne : numberGroup (vendorGroup invs v) n ≠ [] := by
    intro h; rw [h] at hlen; simp at hlen
  obtain ⟨d0, rest, hD⟩ := List.exists_cons_of_ne_nil hne
  have hsome : (mkExactFinding n (numberGroup (vendorGroup invs v) n)).isSome = true := by
    rw [hD]
    exact mkExactFinding_isSome (hD ▸ hlen) (fun i hi => ha i (hD ▸ hi))
  have hd0 : d0 ∈ numberGroup (vendorGroup invs v) n := by
    rw [hD]; exact List.mem_cons_self d0 rest
  have hd0G : d0 ∈ vendorGroup invs v := (List.mem_filter.mp hd0).1
  have hd0n : d0.invoice_number = some n := by
    have := (List.mem_filter.mp hd0).2
    simpa using this
  have hnk : n ∈ numberKeys (vendorGroup invs v) := by
    rw [numberKeys, mem_dedupKeepFirst, List.mem_filterMap]
    refine ⟨d0, hd0G, ?_⟩
    rw [hd0n]
    exact if_neg hn
  refine ⟨?_, ?_, ?_⟩
  · rw [exactFindingsFor, List.countP_filterMap]
    have hcong : List.countP
          (fun m => (Option.map (fun f => f.detail_invoice_number == some n)
            (mkExactFinding m (numberGroup (vendorGroup invs v) m))).getD false)
          (numberKeys (vendorGroup invs v))
        = List.countP (fun m => m == n) (numberKeys (vendorGroup invs v)) := by
      refine List.countP_congr ?_
      intro m _
      constructor
      · intro hm
        rcases hF : mkExactFinding m (numberGroup (vendorGroup invs v) m) with _ | f
        · rw [hF] at hm; simp at hm
        · rw [hF] at hm
          have hdet := (mkExactFinding_some hF).2.2.1
          simp [hdet] at hm
          simp [hm]
      · intro hm
        have hmn : m = n := by simpa using hm
        subst hmn
        rcases hF : mkExactFinding m (numberGroup (vendorGroup invs v) m) with _ | f
        · rw [hF] at hsome; simp at hsome
        · have hdet := (mkExactFinding_some hF).2.2.1
          simp [hdet]
    rw [hcong]
    have hcount := List.count_eq_one_of_mem
      (nodup_dedupKeepFirst (vendorGroup invs v |>.filterMap (fun i =>
        match i.invoice_number with
        | some s => if s = "" then none else some s
        | none => none))) hnk
    simpa [List.count, numberKeys] using hcount
  · intro f hf hdet
    rcases List.mem_filterMap.mp hf with ⟨m, _, hF⟩
    obtain ⟨htype, hconf, hnum, hcnt, d0', rest', hD', hamt⟩ := mkExactFinding_some hF
    have hmn : m = n := by
      rw [hnum] at hdet
      exact Option.some_injective _ hdet
    subst hmn
    have hd0' : amountOf d0' = a := by
      refine ha d0' ?_
      rw [hD']
      exact List.mem_cons_self d0' rest'
    exact ⟨htype, by rw [hamt, hd0'], hconf, hcnt⟩
  · intro f hf
    have hv : v ∈ vendorKeys invs := by
      rw [vendorKeys, mem_dedupKeepFirst, List.mem_map]
      have hd0inv : d0 ∈ invs := (List.mem_filter.mp hd0G).1
      have hkey : vendorKey d0 = v := by
        have := (List.mem_filter.mp hd0G).2
        simpa using this
      exact ⟨d0, hd0inv, hkey⟩
    exact List.mem_flatMap.mpr ⟨v, hv, List.mem_append_left _ hf⟩

theorem exact_duplicate_emission_witness :
    (exactFindingsFor (vendorGroup c2rows "awsinc")).countP
        (fun f => f.detail_invoice_number == some "AWS-1") = 1
    ∧ (∀ f ∈ exactFindingsFor (vendorGroup c2rows "awsinc"),
        f.detail_invoice_number = some "AWS-1" →
          f.duplicate_type = DuplicateType.exact
            ∧ f.amount
                = 2499 * (((numberGroup (vendorGroup c2rows "awsinc") "AWS-1").length : ℚ) - 1)
            ∧ f.confidence_score = 98 / 100
            ∧ f.invoice_count = (numberGroup (vendorGroup c2rows "awsinc") "AWS-1").length)
    ∧ (∀ f ∈ exactFindingsFor (vendorGroup c2rows "awsinc"), f ∈ detectDuplicates c2rows) :=
  exact_duplicate_emission c2rows "awsinc" "AWS-1" 2499 (by decide) (by decide) (by decide)

/-! ### C4: subscription-cadence suppression -/

theorem length_filterMap_of_all_some {α β : Type} (f : α → Option β) :
    ∀ (l : List α), (∀ x ∈ l, (f x).isSome = true) →
      (l.filterMap f).length = l.length := by
  intro l
  induction l with
  | nil => intro _; rfl
  | cons x xs ih =>
    intro hall
    have hx := hall x (List.mem_cons_self x xs)
    rcases hfx : f x with _ | b
    · rw [hfx] at hx; simp at hx
    · rw [List.filterMap_cons, hfx]
      simp only [List.length_cons]
      rw [ih (fun y hy => hall y (List.mem_cons_of_mem x hy))]

theorem datedSorted_length (l : List InvoiceRow) :
    (datedSorted l).length = (l.filter (fun i => i.invoice_date.isSome)).length := by
  rw [datedSorted, List.length_insertionSort]

theorem mem_datedSorted_isSome {l : List InvoiceRow} {i : InvoiceRow}
    (h : i ∈ datedSorted l) : i.invoice_date.isSome = true := by
  rw [datedSorted, List.mem_insertionSort] at h
  exact (List.mem_filter.mp h).2

theorem subIntervals_length (l : List InvoiceRow) :
    (subIntervals l).length = (datedSorted l).length - 1 := by
  rw [subIntervals]
  rw [length_filterMap_of_all_some]
  · rw [List.length_zip, List.length_tail]
    omega
  · intro p hp
    have hmem := List.of_mem_zip hp
    have h1 := mem_datedSorted_isSome hmem.1
    have h2 := mem_datedSorted_isSome (List.mem_of_mem_tail hmem.2)
    rcases hd1 : p.1.invoice_date with _ | d1
    · rw [hd1] at h1; simp at h1
    · rcases hd2 : p.2.invoice_date with _ | d2
      · rw [hd2] at h2; simp at h2
      · simp [hd1, hd2]

theorem isLikelySubscription_of_band {l : List InvoiceRow}
    (h3 : 3 ≤ (l.filter (fun i => i.invoice_date.isSome)).length)
    (hband : inSubscriptionBand (avgInterval l) = true) :
    isLikelySubscription l = true := by
  have hlf := List.length_filter_le (fun i => i.invoice_date.isSome) l
  have hds : (datedSorted l).length = (l.filter (fun i => i.invoice_date.isSome)).length :=
    datedSorted_length l
  have hint : (subIntervals l).length = (datedSorted l).length - 1 := subIntervals_length l
  rw [isLikelySubscription]
  rw [if_neg (by omega), if_neg (by omega), if_neg ?_]
  · exact hband
  · have hne : subIntervals l ≠ [] := by
      intro h
      rw [h] at hint
      simp at hint
      omega
    simpa using hne

theorem isLikelySubscription_of_few_dated {l : List InvoiceRow}
    (h : (l.filter (fun i => i.invoice_date.isSome)).length < 3) :
    isLikelySubscription l = false := by
  rw [isLikelySubscription]
  by_cases h1 : l.length < 3
  · rw [if_pos h1]
  · rw [if_neg h1, if_pos (by rw [datedSorted_length]; exact h)]

theorem probableFindingsFor_charge_ne {g : List InvoiceRow} {a : ℚ}
    (hsub : isLikelySubscription (amountGroup (sortByDate g) a) = true) :
    ∀ f ∈ probableFindingsFor g, f.detail_charge_amount ≠ some a := by
  intro f hf heq
  rw [probableFindingsFor] at hf
  rcases List.mem_flatMap.mp hf with ⟨b, _, hin⟩
  dsimp only at hin
  split at hin
  · simp at hin
  · rcases List.mem_filterMap.mp hin with ⟨c, _, hmk⟩
    obtain ⟨-, -, -, -, hcharge, -, -, hnotsub⟩ := mkProbableFinding_some hmk
    rw [hcharge] at heq
    have hba : b = a := Option.some_injective _ heq
    rw [hba] at hnotsub
    rw [hnotsub] at hsub
    cases hsub

/-- C4: (i) If the same-amount bucket of a vendor group has at least three
dated members and their average consecutive-day interval lies in a
recognized cadence band (7±2, 14±3, 30±5, 90±7 or 365±14 days),
`_is_likely_subscription` classifies the bucket as a subscription and
`_find_probable_duplicates` emits no probable finding for that amount
(for any temporal cluster inside the bucket).  (ii) A set with fewer than
three dated members is never classified as a subscription. -/
theorem subscription_cadence_suppression :
    (∀ (invs : List InvoiceRow) (v : String) (a : ℚ),
      3 ≤ ((amountGroup (sortByDate (vendorGroup invs v)) a).filter
            (fun i => i.invoice_date.isSome)).length →
      inSubscriptionBand (avgInterval (amountGroup (sortByDate (vendorGroup invs v)) a)) = true →
      isLikelySubscription (amountGroup (sortByDate (vendorGroup invs v)) a) = true
        ∧ ∀ f ∈ probableFindingsFor (vendorGroup invs v), f.detail_charge_amount ≠ some a)
    ∧ (∀ l : List InvoiceRow,
        (l.filter (fun i => i.invoice_date.isSome)).length < 3 →
        isLikelySubscription l = false) := by
  constructor
  · intro invs v a h3 hband
    have hsub := isLikelySubscription_of_band h3 hband
    exact ⟨hsub, probableFindingsFor_charge_ne hsub⟩
  · intro l h
    exact isLikelySubscription_of_few_dated h

theorem subscription_cadence_suppression_witness :
    (isLikelySubscription (amountGroup (sortByDate (vendorGroup c4rows "netflix")) 16) = true
      ∧ ∀ f ∈ probableFindingsFor (vendorGroup c4rows "netflix"),
          f.detail_charge_amount ≠ some 16)
    ∧ isLikelySubscription [] = false :=
  ⟨subscription_cadence_suppression.1 c4rows "netflix" 16 (by decide)
      (by
        norm_num +decide [inSubscriptionBand, avgInterval, subIntervals, datedSorted,
          subscriptionPatterns, amountGroup, sortByDate, vendorGroup, vendorKey, amountOf,
          dateKey, dateMin, c4rows, List.insertionSort, List.orderedInsert, List.any,
          List.filterMap_cons, List.filterMap_nil]),
    subscription_cadence_suppression.2 [] (by decide)⟩

/-! ### C6: pattern-based extraction confidence (corrected) -/

/-- C6 counterexample: vendor + amount + invoice number with no date yields
confidence 0.8 under `_calculate_confidence`, not the 0.9 the claim's
uniform 0.3-per-field weighting predicts. -/
theorem pattern_confidence_counterexample :
    calculateConfidence (some "Acme Corp") 100 (some "INV-7") none = 4 / 5
    ∧ ¬ calculateConfidence (some "Acme Corp") 100 (some "INV-7") none = 9 / 10 := by
  constructor <;> norm_num +decide [calculateConfidence, truthyStr]

/-- C6 as amended: the pattern-strategy confidence is 0.3 for a truthy
vendor, 0.3 for a positive amount, 0.2 for a truthy invoice number and 0.2
for a present date, summed and capped at 1.0. -/
theorem pattern_confidence_weights (vendor : Option String) (amount : ℚ)
    (invoice_number : Option String) (invoice_date : Option Int) :
    calculateConfidence vendor amount invoice_number invoice_date
      = confidenceSpec vendor amount invoice_number invoice_date := by
  rw [calculateConfidence, confidenceSpec]
  cases hv : truthyStr vendor <;> cases hn : truthyStr invoice_number <;>
    cases hd : invoice_date.isSome <;> by_cases ha : 0 < amount <;>
      simp [hv, hn, hd, ha]

/-! ### C7: the model-assisted failure fallback cannot be constructed -/

/-- C7: The `except` branch of `extract_invoice_data` builds its fallback
invoice with amount `0.00`, which `ParsedInvoice.validate_amount` rejects,
so the branch raises instead of returning; `parse_pdf` therefore reports
`success = False` with the validation message and no invoice — not the
claimed success-with-fallback-invoice. -/
theorem gpt_fallback_construction_rejected :
    gptFailureFallback "connection reset by peer" = Except.error "Amount must be positive"
    ∧ (parsePdfAfterGptFailure "connection reset by peer").success = false
    ∧ (parsePdfAfterGptFailure "connection reset by peer").invoice = none := by
  refine ⟨?_, ?_, ?_⟩ <;> rfl

/-! ### C8: ParsedInvoice construction invariant -/

/-- C8: Constructing a `ParsedInvoice` with amount ≤ 0 fails with the
`validate_amount` error, and every successfully constructed `ParsedInvoice`
has a positive amount. -/
theorem parsed_invoice_amount_positive (v : String) (a c : ℚ) (m : String)
    (r : Option String) :
    (a ≤ 0 → mkParsedInvoice v a c m r = Except.error "Amount must be positive")
    ∧ (∀ inv, mkParsedInvoice v a c m r = Except.ok inv → 0 < inv.amount) := by
  constructor
  · intro h
    rw [mkParsedInvoice, if_pos h]
  · intro inv h
    rw [mkParsedInvoice] at h
    split at h
    · cases h
    · cases h
      rename_i hle
      exact lt_of_not_le hle

theorem parsed_invoice_amount_positive_witness :
    mkParsedInvoice "X Corp" (-5) 0 "pdf_regex" none
        = Except.error "Amount must be positive"
    ∧ ∀ inv, mkParsedInvoice "Acme" 5 0 "pdf_regex" none = Except.ok inv →
        0 < inv.amount :=
  ⟨(parsed_invoice_amount_positive "X Corp" (-5) 0 "pdf_regex" none).1 (by norm_num),
    (parsed_invoice_amount_positive "Acme" 5 0 "pdf_regex" none).2⟩

theorem deny_precedence_counterexample :
    hasAnyKeyword (lowerStr (c9email.body.getD "")) quoteKeywords = true
    ∧ hasAnyKeyword (lowerStr (c9email.subject.getD "")) invoiceKeywords = true
    ∧ isInvoiceRelated c9email = true := by
  refine ⟨?_, ?_, ?_⟩ <;> decide

/-- C9 as amended: the deny-list takes precedence stage-by-stage, not
globally — a deny keyword in the subject forces rejection even when invoice
keywords also match; a deny keyword in the body forces rejection only when
the subject matched neither list; and attachment-filename deny keywords
apply only when neither subject nor body matched either list: then the
attachment loop decides, and an attachment whose lowered filename holds a
deny keyword rejects the email on the spot. -/
theorem deny_precedence_stagewise (e : EmailMsg) :
    (hasAnyKeyword (lowerStr (e.subject.getD "")) quoteKeywords = true →
      isInvoiceRelated e = false)
    ∧ (hasAnyKeyword (lowerStr (e.subject.getD "")) quoteKeywords = false →
        hasAnyKeyword (lowerStr (e.subject.getD "")) invoiceKeywords = false →
        hasAnyKeyword (lowerStr (e.body.getD "")) quoteKeywords = true →
        isInvoiceRelated e = false)
    ∧ (hasAnyKeyword (lowerStr (e.subject.getD "")) quoteKeywords = false →
        hasAnyKeyword (lowerStr (e.subject.getD "")) invoiceKeywords = false →
        hasAnyKeyword (lowerStr (e.body.getD "")) quoteKeywords = false →
        hasAnyKeyword (lowerStr (e.body.getD "")) invoiceKeywords = false →
        isInvoiceRelated e = checkAttachments e.attachments)
    ∧ (∀ (fn : String) (rest : List String),
        hasAnyKeyword (lowerStr fn) quoteKeywords = true →
        checkAttachments (fn :: rest) = false) := by
  refine ⟨?_, ?_, ?_, ?_⟩
  · intro h
    rw [isInvoiceRelated]
    dsimp only
    rw [if_pos h]
  · intro h1 h2 h3
    rw [isInvoiceRelated]
    dsimp only
    rw [if_neg (by simp [h1]), if_neg (by simp [h2]), if_pos h3]
  · intro h1 h2 h3 h4
    rw [isInvoiceRelated]
    dsimp only
    rw [if_neg (by simp [h1]), if_neg (by simp [h2]), if_neg (by simp [h3]),
      if_neg (by simp [h4])]
  · intro fn rest h
    rw [checkAttachments]
    dsimp only
    rw [if_pos h]

theorem deny_precedence_stagewise_witness :
    isInvoiceRelated c9subjectDeny = false
    ∧ isInvoiceRelated c9bodyDeny = false
    ∧ isInvoiceRelated c9attDeny = checkAttachments c9attDeny.attachments
    ∧ checkAttachments ["Quote.pdf"] = false :=
  ⟨(deny_precedence_stagewise c9subjectDeny).1 (by decide),
    (deny_precedence_stagewise c9bodyDeny).2.1 (by decide) (by decide) (by decide),
    (deny_precedence_stagewise c9attDeny).2.2.1 (by decide) (by decide) (by decide)
      (by decide),
    (deny_precedence_stagewise c9attDeny).2.2.2 "Quote.pdf" [] (by decide)⟩

/-- C10: Invoices whose `vendor_name_normalized` field is missing all get
the vendor key `"unknown"`, so records from different real vendors are
compared with each other: concretely, two such invoices can end up in one
exact `DuplicateFinding`, and in one `PriceIncreaseFinding`. -/
theorem unknown_vendor_grouping :
    (∀ inv : InvoiceRow, inv.vendor_name_normalized = none → vendorKey inv = "unknown")
    ∧ (∃ f ∈ detectDuplicates c10dupRows,
        f.duplicate_type = DuplicateType.exact ∧ f.invoice_ids = ["u1", "u2"])
    ∧ (∃ l, detectPriceIncreases 20 c10priceRows = Except.ok l
        ∧ ∃ f ∈ l, f.invoice_ids = ["u3", "u4"]) := by
  refine ⟨?_, ?_, ?_⟩
  · intro inv h
    rw [vendorKey, h]
    rfl
  · decide
  · have h : detectPriceIncreases 20 c10priceRows = Except.ok [c10price] := by
      norm_num +decide [detectPriceIncreases, priceGroups, vendorKeys, vendorGroup,
        dedupKeepFirst, dedupAux, vendorKey, pricePairs, mkPriceFinding,
        mkPriceIncreaseFinding, sortByDate, amountOf, dateKey, dateMin, c10priceRows,
        c10price, List.insertionSort, List.orderedInsert]
    exact ⟨[c10price], h, c10price, List.mem_singleton.mpr rfl, rfl⟩

theorem unknown_vendor_grouping_witness :
    vendorKey { id := "u9", vendor_name := some "Initech" } = "unknown" :=
  unknown_vendor_grouping.1 { id := "u9", vendor_name := some "Initech" } rfl
